import Mathlib

/-
  Shallow embedding of the compiler lifecycle and eviction engine of the
  kevin-middleware repository (src/lib/ManagedCompiler.js and
  src/lib/CompilerManager.js).

  Modelling conventions:
  * Timestamps (JS `Date.now()` milliseconds) are `Int`; every operation that
    reads the clock takes the current time `now : Int` as an explicit argument.
  * Scores returned by `getFrequency` / `getFrecency` are `WithTop Rat`;
    the JS value `Infinity` is `⊤`, finite numbers are rationals
    (JS division here only ever divides by 2, 4 or 60, which is exact on
    the inputs that occur, so `Rat` is faithful).
  * JS exceptions (`throw`) are `Except String`; the thrown message is kept.
  * A JS object used as a string-keyed map (`this.activeCompilers`) is a
    `List (String × ManagedCompiler)` in insertion order; JS objects preserve
    insertion order for non-integer-like string keys, which compiler config
    names are.  `Object.values` is `List.map Prod.snd` on that list.
  * Waiter callbacks (`{resolve, reject}` pairs) are identified by a `Nat`
    id; calling them is modelled by emitting a `SettleEvent` naming the
    waiter, the callback invoked and the value passed to it.
  * Logging (`logError`) has no effect on program state and is elided.
-/

namespace Kevin

/-! ## constants.js -/

def FIRST_BUILD : String := "first-build"

def BUILDING : String := "building"

def ERROR : String := "error"

def DONE : String := "done"

/-! ## ManagedCompiler.js -/

/-- MS_PER_MINUTE = 60 * 1000 (ManagedCompiler.js line 13). -/
def MS_PER_MINUTE : Int := 60 * 1000

/-- FREQUENCY_RANGE = 60 minutes (ManagedCompiler.js line 14). -/
def FREQUENCY_RANGE : Int := 60

/-- Observable settlement of one waiter: which stored callback was invoked
and with what payload.  `resolved w v` models `resolve(v)` being called on
waiter `w`; `rejected w e` models `reject(e)` with error summary `e`. -/
inductive SettleEvent where
  | resolved (waiter : Nat) (value : Bool)
  | rejected (waiter : Nat) (err : String)
deriving DecidableEq, Repr

/-- State of one ManagedCompiler (the mutable fields set up by the
constructor, ManagedCompiler.js lines 17-42).  The opaque `compiler` and
`watching` handles carry no state relevant to this development; their
presence at construction time is modelled by the two `Bool` arguments of
`ManagedCompiler.construct`. -/
structure ManagedCompiler where
  name : String
  status : String
  callbacks : List Nat
  frequencyChecks : List Int
  numberOfUses : Nat
  lastUse : Int
  lastErrors : List String
  pinned : Bool
deriving DecidableEq, Repr

/-- Valid statuses checked by setStatus (ManagedCompiler.js line 118). -/
def validStatuses : List String := [FIRST_BUILD, BUILDING, ERROR, DONE]

/-- ManagedCompiler.setStatus (lines 116-132).  Validates the status and
throws on an invalid one; stores the filtered non-falsy errors as
`lastErrors` (JS maps Error objects to `err.stack`; errors are modelled as
their string descriptions, and JS falsiness of a string is emptiness).
When status is ERROR and no errors are given the source only logs a
warning, which is elided. -/
def ManagedCompiler.setStatus (c : ManagedCompiler) (status : String)
    (errors : List String) : Except String ManagedCompiler :=
  if validStatuses.contains status then
    Except.ok { c with status := status,
                       lastErrors := errors.filter (fun e => e ≠ "") }
  else
    Except.error (status ++ " is not a valid status for a compiler.")

/-- ManagedCompiler constructor (lines 17-42).  `name` is `Option String`
(none models a non-string JS value), `hasCompiler` / `hasWatching` model
JS truthiness of the two handle arguments.  The source calls
`this.setStatus(status)` which throws on an invalid status; on success all
internal state is initialized as shown.  `addCompilationHooks` only
registers the signal handlers modelled below as standalone functions. -/
def ManagedCompiler.construct (name : Option String)
    (hasCompiler hasWatching : Bool) (status : String) (now : Int)
    (pinned : Bool) : Except String ManagedCompiler :=
  match name with
  | none => Except.error "ManagedCompiler must be initialized with a string name."
  | some n =>
    if !hasCompiler || !hasWatching then
      Except.error
        "ManagedCompiler needs a reference to a compiler and its Watching instance."
    else
      ManagedCompiler.setStatus
        { name := n
          status := ""
          callbacks := []
          frequencyChecks := []
          numberOfUses := 0
          lastUse := now
          lastErrors := []
          pinned := pinned }
        status []

/-- ManagedCompiler.addCallback (lines 146-153); the poorly-formatted
callback warning is a log only. -/
def ManagedCompiler.addCallback (c : ManagedCompiler) (waiter : Nat) :
    ManagedCompiler :=
  { c with callbacks := c.callbacks ++ [waiter] }

/-- ManagedCompiler.clearCallbacks (lines 155-158). -/
def ManagedCompiler.clearCallbacks (c : ManagedCompiler) : ManagedCompiler :=
  { c with callbacks := [] }

/-- ManagedCompiler.resolveCallbacks (lines 160-165): call `resolve(response)`
on every registered waiter in order, then clear the list. -/
def ManagedCompiler.resolveCallbacks (c : ManagedCompiler) (response : Bool) :
    ManagedCompiler × List SettleEvent :=
  (c.clearCallbacks, c.callbacks.map (fun w => SettleEvent.resolved w response))

/-- ManagedCompiler.rejectCallbacks (lines 167-172): call `reject` on every
registered waiter in order (the payload is summarised to one string), then
clear the list. -/
def ManagedCompiler.rejectCallbacks (c : ManagedCompiler) (err : String) :
    ManagedCompiler × List SettleEvent :=
  (c.clearCallbacks, c.callbacks.map (fun w => SettleEvent.rejected w err))

/-- ManagedCompiler.newCompilationHandler (lines 74-78), run on the
`invalid`, `run` and `watchRun` signals: set BUILDING unless the current
status is FIRST_BUILD.  BUILDING is always a valid status so the
`setStatus` call cannot throw; the error branch is unreachable. -/
def ManagedCompiler.newCompilationHandler (c : ManagedCompiler) :
    ManagedCompiler :=
  if c.status ≠ FIRST_BUILD then
    match c.setStatus BUILDING [] with
    | Except.ok c2 => c2
    | Except.error _ => c
  else c

/-- ManagedCompiler.finishedCompilationHandler (lines 80-93), run on the
`done` signal.  `hasErrors` models `stats.hasErrors()` and `errors` the
error list of `stats.compilation.errors`. -/
def ManagedCompiler.finishedCompilationHandler (c : ManagedCompiler)
    (hasErrors : Bool) (errors : List String) :
    Except String (ManagedCompiler × List SettleEvent) :=
  if hasErrors then
    match c.setStatus ERROR errors with
    | Except.error e => Except.error e
    | Except.ok c2 => Except.ok (c2.rejectCallbacks "compilation errors")
  else
    match c.setStatus DONE [] with
    | Except.error e => Except.error e
    | Except.ok c2 => Except.ok (c2.resolveCallbacks false)

/-- ManagedCompiler.logFrequencyUsage (lines 179-189): push `now` onto
`frequencyChecks` (oldest times stay at the front), set `lastUse`,
increment `numberOfUses`. -/
def ManagedCompiler.logFrequencyUsage (c : ManagedCompiler) (now : Int) :
    ManagedCompiler :=
  { c with
      frequencyChecks := c.frequencyChecks ++ [now]
      lastUse := now
      numberOfUses := c.numberOfUses + 1 }

/-- The prune loop of getFrequency (lines 205-207):
`while (this.frequencyChecks[1] < frequencyWindow) this.frequencyChecks.shift()`.
Note the source tests index 1 (the second element): `shift()` removes the
first element and the loop repeats while the current second element is
older than the window; on a list of length at most one JS reads
`undefined`, the comparison is false and the loop stops. -/
def pruneChecks (frequencyWindow : Int) : List Int → List Int
  | c0 :: c1 :: rest =>
    if c1 < frequencyWindow then pruneChecks frequencyWindow (c1 :: rest)
    else c0 :: c1 :: rest
  | l => l

/-- ManagedCompiler.getFrequency (lines 196-210): Infinity when pinned, 0
when no samples, otherwise destructively prune (see `pruneChecks`) and
return the remaining sample count divided by FREQUENCY_RANGE.  Returns the
value together with the compiler after the destructive prune. -/
def ManagedCompiler.getFrequency (c : ManagedCompiler) (now : Int) :
    WithTop Rat × ManagedCompiler :=
  if c.pinned then (⊤, c)
  else if c.frequencyChecks.isEmpty then (((0 : Rat) : WithTop Rat), c)
  else
    (((((pruneChecks (now - FREQUENCY_RANGE * MS_PER_MINUTE)
            c.frequencyChecks).length : Rat) / (60 : Rat) : Rat) : WithTop Rat),
      { c with frequencyChecks :=
          pruneChecks (now - FREQUENCY_RANGE * MS_PER_MINUTE) c.frequencyChecks })

/-- ManagedCompiler.getFrecency (lines 224-237): Infinity when pinned,
otherwise `numberOfUses` weighted by the recency bucket of
`now - lastUse`. -/
def ManagedCompiler.getFrecency (c : ManagedCompiler) (now : Int) :
    WithTop Rat :=
  if c.pinned then ⊤
  else if now - c.lastUse < MS_PER_MINUTE then
    (((c.numberOfUses : Rat) * 4 : Rat) : WithTop Rat)
  else if now - c.lastUse < 5 * MS_PER_MINUTE then
    (((c.numberOfUses : Rat) * 2 : Rat) : WithTop Rat)
  else if now - c.lastUse < 30 * MS_PER_MINUTE then
    (((c.numberOfUses : Rat) / 2 : Rat) : WithTop Rat)
  else
    (((c.numberOfUses : Rat) / 4 : Rat) : WithTop Rat)

/-- ManagedCompiler.invalidate (lines 242-245): `watching.invalidate()` is
an external call with no local state effect, then status is set to
BUILDING unconditionally (BUILDING is always valid, so the error branch is
unreachable). -/
def ManagedCompiler.invalidate (c : ManagedCompiler) : ManagedCompiler :=
  match c.setStatus BUILDING [] with
  | Except.ok c2 => c2
  | Except.error _ => c

/-! ## CompilerManager.js -/

/-- The string-keyed JS object `this.activeCompilers`, in insertion order. -/
abbrev CompilerMap := List (String × ManagedCompiler)

/-- Reading `this.activeCompilers[name]`. -/
def lookupKey : CompilerMap → String → Option ManagedCompiler
  | [], _ => none
  | (k, v) :: rest, key => if k = key then some v else lookupKey rest key

/-- Writing `this.activeCompilers[name] = v`: overwrite in place when the
key exists (JS keeps the original insertion position), append otherwise. -/
def setKey : CompilerMap → String → ManagedCompiler → CompilerMap
  | [], key, v => [(key, v)]
  | (k, w) :: rest, key, v =>
    if k = key then (key, v) :: rest else (k, w) :: setKey rest key v

/-- The JS `delete this.activeCompilers[name]`. -/
def eraseKey (m : CompilerMap) (key : String) : CompilerMap :=
  m.filter (fun p => p.1 ≠ key)

/-- CompilerManager state (CompilerManager.js lines 17-20). -/
structure CompilerManager where
  activeCompilers : CompilerMap
  useFrequency : Bool
deriving DecidableEq, Repr

/-- The constructor `new CompilerManager({useFrequency})`. -/
def CompilerManager.new (useFrequency : Bool) : CompilerManager :=
  { activeCompilers := [], useFrequency := useFrequency }

/-- CompilerManager.isCompilerActive (lines 43-45):
`!!this.activeCompilers[name]`. -/
def CompilerManager.isCompilerActive (m : CompilerManager) (name : String) :
    Bool :=
  (lookupKey m.activeCompilers name).isSome

/-- CompilerManager.countActiveCompilers (lines 50-52):
`Object.keys(this.activeCompilers).length` (keys are unique in a JS
object, and `setKey` / `eraseKey` preserve key uniqueness). -/
def CompilerManager.countActiveCompilers (m : CompilerManager) : Nat :=
  m.activeCompilers.length

/-- CompilerManager.noteCompilerUsage (lines 94-107): log an error and
return for an unmanaged name, skip pinned compilers, otherwise delegate to
logFrequencyUsage. -/
def CompilerManager.noteCompilerUsage (m : CompilerManager) (name : String)
    (now : Int) : CompilerManager :=
  match lookupKey m.activeCompilers name with
  | none => m
  | some c =>
    if c.pinned then m
    else
      { m with
          activeCompilers :=
            setKey m.activeCompilers name (c.logFrequencyUsage now) }

/-- CompilerManager.manageCompiler (lines 29-37): construct a
ManagedCompiler and store it under `name`, then note its usage.  The
`new ManagedCompiler(...)` call site passes no pinned flag, so the
constructor default `false` applies (passed explicitly here).  The
constructor may throw; manageCompiler does not catch, so the exception
propagates to the caller and no entry is stored (the assignment happens
only after the constructor returns). -/
def CompilerManager.manageCompiler (m : CompilerManager) (name : Option String)
    (hasCompiler hasWatching : Bool) (status : String) (now : Int) :
    Except String CompilerManager :=
  match ManagedCompiler.construct name hasCompiler hasWatching status now false with
  | Except.error e => Except.error e
  | Except.ok c =>
    Except.ok
      (({ m with activeCompilers := setKey m.activeCompilers c.name c
        } : CompilerManager).noteCompilerUsage c.name now)

/-- CompilerManager.getStatus (lines 66-72). -/
def CompilerManager.getStatus (m : CompilerManager) (name : String) :
    Option String :=
  match lookupKey m.activeCompilers name with
  | none => none
  | some c => some c.status

/-- CompilerManager.setStatus (lines 80-86): log-and-return for unknown
names; otherwise delegate (an invalid status throws out of the delegate
before any state change). -/
def CompilerManager.setStatus (m : CompilerManager) (name status : String)
    (errors : List String) : Except String CompilerManager :=
  match lookupKey m.activeCompilers name with
  | none => Except.ok m
  | some c =>
    match c.setStatus status errors with
    | Except.error e => Except.error e
    | Except.ok c2 =>
      Except.ok { m with activeCompilers := setKey m.activeCompilers name c2 }

/-- CompilerManager.addDeferredCallback (lines 120-128): for an untracked
name the caller is rejected immediately (the `true` result); otherwise the
waiter is appended to the compiler's callback list. -/
def CompilerManager.addDeferredCallback (m : CompilerManager) (name : String)
    (waiter : Nat) : CompilerManager × Bool :=
  match lookupKey m.activeCompilers name with
  | none => (m, true)
  | some c =>
    ({ m with activeCompilers := setKey m.activeCompilers name (c.addCallback waiter) },
      false)

/-- Result of CompilerManager.getLeastUsedCompiler: `null`, a victim name,
or a thrown TypeError. -/
inductive EvictionResult where
  | thrown
  | null
  | victim (name : String)
deriving DecidableEq, Repr

/-- CompilerManager.getLeastUsedCompiler (lines 198-211).

The source returns null when the pool is empty, and otherwise evaluates
`Object.values(this.activeCompilers).filter(c => !c.pinned).sort(cmp)[0].name`
where `cmp(c1, c2)` returns the BOOLEAN `c2.score < c1.score` (score being
getFrequency or getFrecency by `useFrequency`).  Two consequences embedded
here:

1. When every active compiler is pinned, the filtered array is empty,
   `[0]` is `undefined`, and reading `.name` throws a TypeError — modelled
   as `EvictionResult.thrown`.

2. `Array.prototype.sort` coerces the comparator result with `ToNumber`,
   so the comparator yields 0 or 1 and never a negative number.  Under
   Node.js / V8 — the runtime of this Express middleware — TimSort treats
   a never-negative comparator as "already in order" everywhere (run
   detection extends a run while the comparison is not negative, and
   binary insertion only moves an element on a negative comparison), so
   the sort leaves the array in its original order and `[0]` is the first
   unpinned compiler in pool insertion order, whatever the scores are.
   The comparator side effect (lazy pruning inside getFrequency) does not
   affect the returned name and is elided here. -/
def CompilerManager.getLeastUsedCompiler (m : CompilerManager) :
    EvictionResult :=
  if m.countActiveCompilers = 0 then EvictionResult.null
  else
    match (m.activeCompilers.map Prod.snd).filter (fun c => !c.pinned) with
    | [] => EvictionResult.thrown
    | c :: _ => EvictionResult.victim c.name

/-- CompilerManager.invalidateCompiler (lines 219-229). -/
def CompilerManager.invalidateCompiler (m : CompilerManager) (name : String) :
    CompilerManager × Bool :=
  match lookupKey m.activeCompilers name with
  | none => (m, false)
  | some c =>
    ({ m with activeCompilers := setKey m.activeCompilers name c.invalidate },
      true)

/-- Immediate outcome of a closeCompiler call (lines 251-263): for an
unmanaged name the returned promise is already resolved with null; for a
managed name `watching.close(cb)` has been invoked and the promise is
pending until `cb` fires (modelled separately by
`CompilerManager.closeCompilerCallback`). -/
inductive CloseStart where
  | resolvedNull
  | pending
deriving DecidableEq, Repr

/-- CompilerManager.closeCompiler (lines 251-263), up to the suspension
point: the pool state is NOT modified when the call is made — the deletion
happens inside the close callback. -/
def CompilerManager.closeCompiler (m : CompilerManager) (name : String) :
    CompilerManager × CloseStart :=
  if m.isCompilerActive name then (m, CloseStart.pending)
  else (m, CloseStart.resolvedNull)

/-- The close callback passed to `watching.close` (lines 258-261): delete
the entry and resolve the pending promise with the compiler name (the
second component is the resolution value). -/
def CompilerManager.closeCompilerCallback (m : CompilerManager)
    (name : String) : CompilerManager × String :=
  ({ m with activeCompilers := eraseKey m.activeCompilers name }, name)

/-! ## Pool operation traces

Every state-changing entry point of the pool, as one inductive of
operations, used to describe the states reachable through the public
CompilerManager interface (signal operations model the build engine
firing the hooks registered at construction on the named instance).  An
operation that throws leaves the state unchanged from the caller's point
of view, because every mutation in the source happens after its
validation. -/

inductive PoolOp where
  | register (name : Option String) (hasCompiler hasWatching : Bool)
      (status : String) (now : Int)
  | note (name : String) (now : Int)
  | setSt (name status : String) (errors : List String)
  | addWaiter (name : String) (waiter : Nat)
  | invalidateOp (name : String)
  | closeFinish (name : String)
  | signalNew (name : String)
  | signalFinished (name : String) (hasErrors : Bool) (errors : List String)

/-- Apply one pool operation to the pool state. -/
def applyOp (m : CompilerManager) : PoolOp → CompilerManager
  | PoolOp.register nm hc hw st now =>
    match m.manageCompiler nm hc hw st now with
    | Except.ok m2 => m2
    | Except.error _ => m
  | PoolOp.note nm now => m.noteCompilerUsage nm now
  | PoolOp.setSt nm st errs =>
    match m.setStatus nm st errs with
    | Except.ok m2 => m2
    | Except.error _ => m
  | PoolOp.addWaiter nm w => (m.addDeferredCallback nm w).1
  | PoolOp.invalidateOp nm => (m.invalidateCompiler nm).1
  | PoolOp.closeFinish nm => (m.closeCompilerCallback nm).1
  | PoolOp.signalNew nm =>
    match lookupKey m.activeCompilers nm with
    | none => m
    | some c =>
      { m with activeCompilers := setKey m.activeCompilers nm c.newCompilationHandler }
  | PoolOp.signalFinished nm he errs =>
    match lookupKey m.activeCompilers nm with
    | none => m
    | some c =>
      match c.finishedCompilationHandler he errs with
      | Except.ok (c2, _) =>
        { m with activeCompilers := setKey m.activeCompilers nm c2 }
      | Except.error _ => m

/-- Every instance of the pool is unpinned. -/
def AllUnpinned (m : CompilerManager) : Prop :=
  ∀ p ∈ m.activeCompilers, p.2.pinned = false

/-! ## Concrete fixtures used by counterexamples and witnesses -/

/-- Build a ManagedCompiler state record directly. -/
def mkCompiler (nm st : String) (checks : List Int) (uses : Nat) (lu : Int)
    (pin : Bool) : ManagedCompiler :=
  { name := nm, status := st, callbacks := [], frequencyChecks := checks,
    numberOfUses := uses, lastUse := lu, lastErrors := [], pinned := pin }

/-- A non-empty pool whose only instance is pinned. -/
def poolOnlyPinned : CompilerManager :=
  { activeCompilers := [("p", mkCompiler "p" DONE [] 0 0 true)],
    useFrequency := false }

/-- Compiler A, used twice at time 0 (both samples in the window at now = 0). -/
def cmpA2 : ManagedCompiler := mkCompiler "A" DONE [0, 0] 2 0 false

/-- Compiler B, used once at time 0. -/
def cmpB1 : ManagedCompiler := mkCompiler "B" DONE [0] 1 0 false

/-- Pool in frequency mode holding A (2 uses) before B (1 use): the state
the pool reaches after registering A at time 0, noting A once more, and
registering B. -/
def poolFreqAB : CompilerManager :=
  { activeCompilers := [("A", cmpA2), ("B", cmpB1)], useFrequency := true }

/-- Unpinned compiler with two usage samples at times 0 and 1, both older
than the 60-minute window when observed at now = 7200000 (two hours). -/
def cmpStale : ManagedCompiler := mkCompiler "x" DONE [0, 1] 2 1 false

/-- Pool of the alpha/beta scenario: "alpha" unpinned (one use at 0),
"beta" pinned. -/
def poolAlphaBeta : CompilerManager :=
  { activeCompilers :=
      [("alpha", mkCompiler "alpha" DONE [0] 1 0 false),
       ("beta", mkCompiler "beta" DONE [] 0 0 true)],
    useFrequency := false }

/-- One-compiler pool for the close-semantics witness. -/
def poolOneA : CompilerManager :=
  { activeCompilers := [("a", mkCompiler "a" DONE [] 0 0 false)],
    useFrequency := false }

/-- Compiler in its first build, for the status-transition witness. -/
def cmpFirst : ManagedCompiler := mkCompiler "f" FIRST_BUILD [] 0 0 false

/-- Compiler already done, for the status-transition witness. -/
def cmpDone : ManagedCompiler := mkCompiler "d" DONE [] 0 0 false

/-- Unpinned compiler with one in-window sample, for the monotonicity
witness at now = 1. -/
def cmpOneUse : ManagedCompiler := mkCompiler "w" DONE [0] 1 0 false

/-! ## Helper lemmas -/

theorem lookupKey_setKey_self (l : CompilerMap) (k : String)
    (v : ManagedCompiler) : lookupKey (setKey l k v) k = some v := by
  induction l with
  | nil => simp [setKey, lookupKey]
  | cons p rest ih =>
    obtain ⟨k2, w⟩ := p
    by_cases h : k2 = k
    · subst h; simp [setKey, lookupKey]
    · simp [setKey, lookupKey, h, ih]

theorem lookupKey_eraseKey_self (l : CompilerMap) (k : String) :
    lookupKey (eraseKey l k) k = none := by
  induction l with
  | nil => rfl
  | cons p rest ih =>
    obtain ⟨k2, w⟩ := p
    by_cases h : k2 = k
    · subst h; simpa [eraseKey, List.filter] using ih
    · simpa [eraseKey, List.filter, h, lookupKey] using ih

theorem mem_setKey (l : CompilerMap) (k : String) (v : ManagedCompiler)
    (p : String × ManagedCompiler) (hp : p ∈ setKey l k v) :
    p = (k, v) ∨ p ∈ l := by
  induction l with
  | nil => simpa [setKey] using hp
  | cons q rest ih =>
    obtain ⟨k2, w⟩ := q
    by_cases h : k2 = k
    · subst h
      simp [setKey] at hp
      rcases hp with h1 | h2
      · exact Or.inl h1
      · exact Or.inr (List.mem_cons_of_mem _ h2)
    · simp [setKey, h] at hp
      rcases hp with h1 | h2
      · exact Or.inr (by simp [h1])
      · rcases ih h2 with h3 | h4
        · exact Or.inl h3
        · exact Or.inr (List.mem_cons_of_mem _ h4)

theorem lookupKey_mem (l : CompilerMap) (k : String) (c : ManagedCompiler)
    (h : lookupKey l k = some c) : (k, c) ∈ l := by
  induction l with
  | nil => simp [lookupKey] at h
  | cons q rest ih =>
    obtain ⟨k2, w⟩ := q
    by_cases hk : k2 = k
    · subst hk
      simp [lookupKey] at h
      simp [h]
    · simp [lookupKey, hk] at h
      exact List.mem_cons_of_mem _ (ih h)

theorem setStatus_pinned (c c2 : ManagedCompiler) (st : String)
    (errs : List String) (h : c.setStatus st errs = Except.ok c2) :
    c2.pinned = c.pinned := by
  unfold ManagedCompiler.setStatus at h
  split at h
  · cases h; rfl
  · cases h

theorem construct_pinned (nm : Option String) (hc hw : Bool) (st : String)
    (now : Int) (pin : Bool) (c : ManagedCompiler)
    (h : ManagedCompiler.construct nm hc hw st now pin = Except.ok c) :
    c.pinned = pin := by
  unfold ManagedCompiler.construct at h
  cases nm with
  | none => cases h
  | some n =>
    simp only at h
    split at h
    · cases h
    · exact setStatus_pinned _ _ _ _ h

/-- If every element of the tail of `l` is inside the window, the prune
loop does nothing (the loop only ever inspects the second element). -/
theorem pruneChecks_eq_self (w : Int) (l : List Int)
    (h : ∀ t ∈ l.tail, w ≤ t) : pruneChecks w l = l := by
  match l with
  | [] => rfl
  | [c0] => rfl
  | c0 :: c1 :: rest =>
    have h1 : w ≤ c1 := h c1 (by simp)
    simp only [pruneChecks, if_neg (not_lt.mpr h1)]

/-! ## Claims -/

/-- C1, counterexample.  The pool `poolOnlyPinned` is non-empty and every
instance in it is pinned; `getLeastUsedCompiler` throws a TypeError
(reading `.name` of `undefined`) instead of returning null. -/
theorem c1_counterexample :
    poolOnlyPinned.countActiveCompilers ≠ 0 ∧
    (∀ p ∈ poolOnlyPinned.activeCompilers, p.2.pinned = true) ∧
    poolOnlyPinned.getLeastUsedCompiler = EvictionResult.thrown ∧
    poolOnlyPinned.getLeastUsedCompiler ≠ EvictionResult.null := by
  refine ⟨by decide, by decide, by decide, by decide⟩

/-- C1, amended: `getLeastUsedCompiler` returns null over the empty pool;
over a non-empty pool containing only pinned instances it does not return
null but throws (the filtered array is empty and `[0].name` is a TypeError). -/
theorem c1_eviction_empty_and_pinned (m : CompilerManager) :
    (m.countActiveCompilers = 0 →
        m.getLeastUsedCompiler = EvictionResult.null) ∧
    (m.countActiveCompilers ≠ 0 →
        (∀ p ∈ m.activeCompilers, p.2.pinned = true) →
        m.getLeastUsedCompiler = EvictionResult.thrown) := by
  constructor
  · intro h
    unfold CompilerManager.getLeastUsedCompiler
    rw [if_pos h]
  · intro hne hall
    unfold CompilerManager.getLeastUsedCompiler
    rw [if_neg hne]
    have hfil : (m.activeCompilers.map Prod.snd).filter
        (fun c => !c.pinned) = [] := by
      rw [List.filter_eq_nil_iff]
      intro c hc
      obtain ⟨p, hp, hpc⟩ := List.mem_map.mp hc
      have := hall p hp
      simp [← hpc, this]
    rw [hfil]

/-- C1, witness for the amended theorem at the empty pool and at the
all-pinned pool. -/
theorem c1_eviction_witness :
    (CompilerManager.new false).getLeastUsedCompiler = EvictionResult.null ∧
    poolOnlyPinned.getLeastUsedCompiler = EvictionResult.thrown :=
  ⟨(c1_eviction_empty_and_pinned (CompilerManager.new false)).1 rfl,
   (c1_eviction_empty_and_pinned poolOnlyPinned).2 (by decide) (by decide)⟩

/-- C2, code bug.  In `poolFreqAB` (frequency mode) compiler "B" has the
strictly smaller frequency (1/60 versus 2/60 for "A"), yet
`getLeastUsedCompiler` returns "A": the boolean comparator coerces to
0 or 1, never a negative number, so the sort leaves insertion order
unchanged and the first unpinned compiler is returned, not the
lowest-scoring one. -/
theorem c2_returns_first_not_least_used :
    poolFreqAB.useFrequency = true ∧
    (cmpB1.getFrequency 0).1 < (cmpA2.getFrequency 0).1 ∧
    lookupKey poolFreqAB.activeCompilers "A" = some cmpA2 ∧
    lookupKey poolFreqAB.activeCompilers "B" = some cmpB1 ∧
    poolFreqAB.getLeastUsedCompiler = EvictionResult.victim "A" := by
  refine ⟨rfl, ?_, by decide, by decide, by decide⟩
  have hB : (cmpB1.getFrequency 0).1 = (((1 : Nat) : Rat) / 60 : Rat) := rfl
  have hA : (cmpA2.getFrequency 0).1 = (((2 : Nat) : Rat) / 60 : Rat) := rfl
  rw [hA, hB]
  exact WithTop.coe_lt_coe.mpr (by norm_num)

/-- C3, code bug.  At now = 7200000 both samples of `cmpStale` (times 0
and 1) are older than the 60-minute window (which starts at 3600000), yet
`getFrequency` removes only the first one: the loop tests
`frequencyChecks[1]`, so the call returns 1/60 and leaves the stale sample
1 in the list, where the claim requires every stale sample to be pruned
and hence a result of 0. -/
theorem c3_prune_keeps_stale_sample :
    (cmpStale.getFrequency 7200000).2.frequencyChecks = [1] ∧
    ((1 : Int) < 7200000 - FREQUENCY_RANGE * MS_PER_MINUTE) ∧
    (cmpStale.getFrequency 7200000).1 = (((1 : Nat) : Rat) / 60 : Rat) ∧
    (cmpStale.getFrequency 7200000).1 ≠ (((0 : Nat) : Rat) : WithTop Rat) := by
  refine ⟨by decide, by decide, rfl, ?_⟩
  have h : (cmpStale.getFrequency 7200000).1 = (((1 : Nat) : Rat) / 60 : Rat) := rfl
  rw [h]
  intro hcontra
  have := WithTop.coe_injective hcontra
  norm_num at this

/-- C5, confirmed.  A build-finished-without-errors signal on any
instance sets the status to DONE, emits a `resolve(false)` call for every
one of the registered waiters (one event per waiter, in order), and leaves
the waiter list empty. -/
theorem c5_done_resolves_all_waiters (c : ManagedCompiler) :
    c.finishedCompilationHandler false [] =
      Except.ok ({ c with status := DONE, lastErrors := [], callbacks := [] },
        c.callbacks.map (fun w => SettleEvent.resolved w false)) ∧
    (c.callbacks.map (fun w => SettleEvent.resolved w false)).length =
      c.callbacks.length := by
  exact ⟨rfl, List.length_map _ _⟩

/-- C8, confirmed.  A build-started or build-invalidated signal keeps a
FIRST_BUILD status and sets BUILDING otherwise, while an explicit
invalidate() sets BUILDING unconditionally (also from FIRST_BUILD). -/
theorem c8_new_compilation_and_invalidate (c : ManagedCompiler) :
    (c.status = FIRST_BUILD → c.newCompilationHandler = c) ∧
    (c.status ≠ FIRST_BUILD → c.newCompilationHandler.status = BUILDING) ∧
    c.invalidate.status = BUILDING := by
  refine ⟨?_, ?_, rfl⟩
  · intro h
    unfold ManagedCompiler.newCompilationHandler
    rw [if_neg (by simpa using h)]
  · intro h
    unfold ManagedCompiler.newCompilationHandler
    rw [if_pos h]
    rfl

/-- C8, witness: a first-build compiler keeps its status on the signal; a
done compiler moves to BUILDING on the signal; invalidate() on a
first-build compiler forces BUILDING. -/
theorem c8_witness :
    cmpFirst.newCompilationHandler = cmpFirst ∧
    cmpDone.newCompilationHandler.status = BUILDING ∧
    cmpFirst.invalidate.status = BUILDING :=
  ⟨(c8_new_compilation_and_invalidate cmpFirst).1 rfl,
   (c8_new_compilation_and_invalidate cmpDone).2.1 (by decide),
   (c8_new_compilation_and_invalidate cmpFirst).2.2⟩

/-- C4, confirmed.  `getLeastUsedCompiler` filters pinned instances out
before selecting, so whenever the pool holds at least one unpinned
instance, the selected victim is an unpinned instance of the pool (never a
pinned one); in the alpha/beta scenario it selects "alpha". -/
theorem c4_eviction_only_unpinned (m : CompilerManager)
    (h : ∃ c ∈ m.activeCompilers.map Prod.snd, c.pinned = false) :
    (∃ c ∈ m.activeCompilers.map Prod.snd, c.pinned = false ∧
        m.getLeastUsedCompiler = EvictionResult.victim c.name) ∧
    poolAlphaBeta.getLeastUsedCompiler = EvictionResult.victim "alpha" := by
  refine ⟨?_, by decide⟩
  obtain ⟨c0, hc0, hpin⟩ := h
  have hne : m.countActiveCompilers ≠ 0 := by
    intro hzero
    have : m.activeCompilers = [] :=
      List.length_eq_zero.mp hzero
    rw [this] at hc0
    simp at hc0
  have hmem : c0 ∈ (m.activeCompilers.map Prod.snd).filter
      (fun c => !c.pinned) :=
    List.mem_filter.mpr ⟨hc0, by simp [hpin]⟩
  unfold CompilerManager.getLeastUsedCompiler
  rw [if_neg hne]
  cases hfil : (m.activeCompilers.map Prod.snd).filter (fun c => !c.pinned) with
  | nil =>
    rw [hfil] at hmem
    cases hmem
  | cons chead ctail =>
    have hhead : chead ∈ (m.activeCompilers.map Prod.snd).filter
        (fun c => !c.pinned) := by
      rw [hfil]; exact List.mem_cons_self _ _
    refine ⟨chead, List.mem_of_mem_filter hhead, ?_, rfl⟩
    have := (List.mem_filter.mp hhead).2
    simpa using this

/-- C4, witness at the alpha/beta pool. -/
theorem c4_eviction_witness :
    (∃ c ∈ poolAlphaBeta.activeCompilers.map Prod.snd, c.pinned = false ∧
        poolAlphaBeta.getLeastUsedCompiler = EvictionResult.victim c.name) ∧
    poolAlphaBeta.getLeastUsedCompiler = EvictionResult.victim "alpha" :=
  c4_eviction_only_unpinned poolAlphaBeta
    ⟨mkCompiler "alpha" DONE [0] 1 0 false, by decide, by decide⟩

/-- C6, confirmed.  `closeCompiler` on an unknown name resolves to null at
once; on a managed name the pool map is untouched until the watch
handle's close callback runs (so `isCompilerActive` still holds between
the call and the callback), and the callback removes the instance and
resolves with its name, after which `isCompilerActive` is false. -/
theorem c6_close_semantics (m : CompilerManager) (name : String) :
    (m.isCompilerActive name = false →
        m.closeCompiler name = (m, CloseStart.resolvedNull)) ∧
    (m.isCompilerActive name = true →
        m.closeCompiler name = (m, CloseStart.pending) ∧
        (m.closeCompiler name).1.isCompilerActive name = true ∧
        (m.closeCompilerCallback name).2 = name ∧
        (m.closeCompilerCallback name).1.isCompilerActive name = false) := by
  constructor
  · intro h
    unfold CompilerManager.closeCompiler
    rw [if_neg (by simp [h])]
  · intro h
    have hpend : m.closeCompiler name = (m, CloseStart.pending) := by
      unfold CompilerManager.closeCompiler
      rw [if_pos h]
    refine ⟨hpend, ?_, rfl, ?_⟩
    · rw [hpend]; exact h
    · unfold CompilerManager.closeCompilerCallback
      unfold CompilerManager.isCompilerActive
      simp [lookupKey_eraseKey_self]

/-- C6, witness: pool with only "a" active; closing the unknown "b"
resolves null immediately, closing "a" is pending with "a" still active
until the callback removes it. -/
theorem c6_close_witness :
    poolOneA.closeCompiler "b" = (poolOneA, CloseStart.resolvedNull) ∧
    poolOneA.closeCompiler "a" = (poolOneA, CloseStart.pending) ∧
    (poolOneA.closeCompiler "a").1.isCompilerActive "a" = true ∧
    (poolOneA.closeCompilerCallback "a").2 = "a" ∧
    (poolOneA.closeCompilerCallback "a").1.isCompilerActive "a" = false := by
  refine ⟨(c6_close_semantics poolOneA "b").1 (by decide), ?_⟩
  have h := (c6_close_semantics poolOneA "a").2 (by decide)
  exact ⟨h.1, h.2.1, h.2.2.1, h.2.2.2⟩

/-- C7, counterexample.  With invalid construction parameters the
registration does not fail silently: the ManagedCompiler constructor
throws and manageCompiler does not catch, so the exception reaches the
caller (shown for a non-string name and for a missing compiler handle). -/
theorem c7_counterexample :
    (CompilerManager.new false).manageCompiler none true true FIRST_BUILD 0 =
      Except.error "ManagedCompiler must be initialized with a string name." ∧
    (CompilerManager.new false).manageCompiler (some "x") false true FIRST_BUILD 0 =
      Except.error
        "ManagedCompiler needs a reference to a compiler and its Watching instance." :=
  ⟨rfl, rfl⟩

/-- C7, amended.  manageCompiler stores a new instance under the given
name and immediately records one usage note for it, so right after
registration the instance's frequency and frecency are strictly positive;
with invalid construction parameters the constructor throws and the error
propagates to the caller (manageCompiler does not catch). -/
theorem c7_register_notes_usage (m : CompilerManager) (nm status : String)
    (now : Int) (hs : validStatuses.contains status = true) :
    (∃ m2 c, m.manageCompiler (some nm) true true status now = Except.ok m2 ∧
        lookupKey m2.activeCompilers nm = some c ∧
        c.numberOfUses = 1 ∧
        ((0 : Rat) : WithTop Rat) < (c.getFrequency now).1 ∧
        ((0 : Rat) : WithTop Rat) < c.getFrecency now) ∧
    m.manageCompiler none true true status now =
      Except.error "ManagedCompiler must be initialized with a string name." ∧
    m.manageCompiler (some nm) false true status now =
      Except.error
        "ManagedCompiler needs a reference to a compiler and its Watching instance." := by
  refine ⟨?_, rfl, rfl⟩
  have hs2 : status ∈ validStatuses := by simpa using hs
  have hcon : ManagedCompiler.construct (some nm) true true status now false =
      Except.ok (mkCompiler nm status [] 0 now false) := by
    simp [ManagedCompiler.construct, ManagedCompiler.setStatus, hs2, mkCompiler]
  have hmc : m.manageCompiler (some nm) true true status now =
      Except.ok ((CompilerManager.mk
        (setKey m.activeCompilers nm (mkCompiler nm status [] 0 now false))
        m.useFrequency).noteCompilerUsage nm now) := by
    simp only [CompilerManager.manageCompiler, hcon]
    rfl
  have hnote : (CompilerManager.mk
      (setKey m.activeCompilers nm (mkCompiler nm status [] 0 now false))
      m.useFrequency).noteCompilerUsage nm now =
      CompilerManager.mk
        (setKey (setKey m.activeCompilers nm (mkCompiler nm status [] 0 now false))
          nm (mkCompiler nm status [now] 1 now false))
        m.useFrequency := by
    simp only [CompilerManager.noteCompilerUsage, lookupKey_setKey_self, mkCompiler,
      ManagedCompiler.logFrequencyUsage]
    rfl
  refine ⟨_, mkCompiler nm status [now] 1 now false, hmc, ?_, rfl, ?_, ?_⟩
  · rw [hnote]
    exact lookupKey_setKey_self _ _ _
  · have hval : ((mkCompiler nm status [now] 1 now false).getFrequency now).1 =
        ((((1 : Nat) : Rat) / 60 : Rat) : WithTop Rat) := rfl
    rw [hval]
    exact WithTop.coe_lt_coe.mpr (by norm_num)
  · have hval : (mkCompiler nm status [now] 1 now false).getFrecency now =
        ((((1 : Nat) : Rat) * 4 : Rat) : WithTop Rat) := by
      unfold ManagedCompiler.getFrecency
      norm_num [mkCompiler, MS_PER_MINUTE]
    rw [hval]
    exact WithTop.coe_lt_coe.mpr (by norm_num)

/-- C7, witness for the amended theorem at the empty pool, name "x",
status FIRST_BUILD, time 0. -/
theorem c7_register_witness :
    (∃ m2 c, (CompilerManager.new false).manageCompiler (some "x") true true
          FIRST_BUILD 0 = Except.ok m2 ∧
        lookupKey m2.activeCompilers "x" = some c ∧
        c.numberOfUses = 1 ∧
        ((0 : Rat) : WithTop Rat) < (c.getFrequency 0).1 ∧
        ((0 : Rat) : WithTop Rat) < c.getFrecency 0) ∧
    (CompilerManager.new false).manageCompiler none true true FIRST_BUILD 0 =
      Except.error "ManagedCompiler must be initialized with a string name." ∧
    (CompilerManager.new false).manageCompiler (some "x") false true FIRST_BUILD 0 =
      Except.error
        "ManagedCompiler needs a reference to a compiler and its Watching instance." :=
  c7_register_notes_usage (CompilerManager.new false) "x" FIRST_BUILD 0 (by decide)

/-- C9, confirmed.  For an unpinned instance whose usage samples all lie
inside the 60-minute window at observation time `now`, one further usage
note strictly increases the frequency ((k-1)/60 to k/60) and strictly
increases the frecency (the note makes the last use current, so the new
score is (n+1)*4, strictly above n*w for every weight w ≤ 4). -/
theorem c9_usage_strictly_increases_scores (c : ManagedCompiler) (now : Int)
    (hpin : c.pinned = false)
    (hwin : ∀ t ∈ c.frequencyChecks,
      now - FREQUENCY_RANGE * MS_PER_MINUTE ≤ t) :
    (c.getFrequency now).1 < ((c.logFrequencyUsage now).getFrequency now).1 ∧
    c.getFrecency now < (c.logFrequencyUsage now).getFrecency now := by
  have hnow : now - FREQUENCY_RANGE * MS_PER_MINUTE ≤ now := by
    simp [FREQUENCY_RANGE, MS_PER_MINUTE]
  constructor
  · -- frequency strictly increases
    have hwin2 : ∀ t ∈ (c.frequencyChecks ++ [now]).tail,
        now - FREQUENCY_RANGE * MS_PER_MINUTE ≤ t := by
      intro t ht
      have ht2 : t ∈ c.frequencyChecks ++ [now] := List.tail_subset _ ht
      rcases List.mem_append.mp ht2 with h1 | h2
      · exact hwin t h1
      · rw [List.mem_singleton.mp h2]; exact hnow
    have hprune2 : pruneChecks (now - FREQUENCY_RANGE * MS_PER_MINUTE)
        (c.frequencyChecks ++ [now]) = c.frequencyChecks ++ [now] :=
      pruneChecks_eq_self _ _ hwin2
    have hne2 : ((c.frequencyChecks ++ [now]).isEmpty) = false := by
      cases c.frequencyChecks <;> rfl
    have hrhs : ((c.logFrequencyUsage now).getFrequency now).1 =
        (((c.frequencyChecks.length + 1 : Nat) : Rat) / 60 : Rat) := by
      unfold ManagedCompiler.getFrequency ManagedCompiler.logFrequencyUsage
      rw [if_neg (by simp [hpin])]
      simp only [hne2, Bool.false_eq_true, if_false]
      rw [hprune2]
      simp
    have hlhs : (c.getFrequency now).1 =
        ((c.frequencyChecks.length : Rat) / 60 : Rat) := by
      by_cases hemp : c.frequencyChecks.isEmpty = true
      · unfold ManagedCompiler.getFrequency
        rw [if_neg (by simp [hpin]), if_pos hemp]
        rw [List.isEmpty_iff.mp hemp]
        norm_num
      · have hprune1 : pruneChecks (now - FREQUENCY_RANGE * MS_PER_MINUTE)
            c.frequencyChecks = c.frequencyChecks := by
          refine pruneChecks_eq_self _ _ ?_
          intro t ht
          exact hwin t (List.tail_subset _ ht)
        unfold ManagedCompiler.getFrequency
        rw [if_neg (by simp [hpin]), if_neg hemp]
        rw [hprune1]
    rw [hrhs, hlhs]
    refine WithTop.coe_lt_coe.mpr ?_
    have hcast : ((c.frequencyChecks.length : Nat) : Rat) <
        ((c.frequencyChecks.length + 1 : Nat) : Rat) := by
      exact_mod_cast Nat.lt_succ_self _
    linarith
  · -- frecency strictly increases
    have hu : (0 : Rat) ≤ (c.numberOfUses : Rat) := Nat.cast_nonneg _
    have hrhs : (c.logFrequencyUsage now).getFrecency now =
        (((c.numberOfUses + 1 : Nat) : Rat) * 4 : Rat) := by
      unfold ManagedCompiler.getFrecency ManagedCompiler.logFrequencyUsage
      rw [if_neg (by simp [hpin])]
      simp only [sub_self]
      rw [if_pos (by decide)]
    rw [hrhs]
    unfold ManagedCompiler.getFrecency
    rw [if_neg (by simp [hpin])]
    have hcast : ((c.numberOfUses + 1 : Nat) : Rat) =
        (c.numberOfUses : Rat) + 1 := by push_cast; ring
    split_ifs <;>
      refine WithTop.coe_lt_coe.mpr ?_ <;> rw [hcast] <;> linarith

/-- C9, witness at a compiler with one in-window sample, observed at
time 1. -/
theorem c9_usage_witness :
    (cmpOneUse.getFrequency 1).1 <
      ((cmpOneUse.logFrequencyUsage 1).getFrequency 1).1 ∧
    cmpOneUse.getFrecency 1 < (cmpOneUse.logFrequencyUsage 1).getFrecency 1 :=
  c9_usage_strictly_increases_scores cmpOneUse 1 rfl
    (by intro t ht; simp [cmpOneUse, mkCompiler] at ht; subst ht; decide)

/-! ## C10: every pool operation preserves unpinnedness -/

theorem invalidate_pinned (c : ManagedCompiler) :
    c.invalidate.pinned = c.pinned := by
  unfold ManagedCompiler.invalidate
  cases hok : c.setStatus BUILDING [] with
  | ok c2 => exact setStatus_pinned _ _ _ _ hok
  | error e => rfl

theorem newCompilationHandler_pinned (c : ManagedCompiler) :
    c.newCompilationHandler.pinned = c.pinned := by
  unfold ManagedCompiler.newCompilationHandler
  split
  · cases hok : c.setStatus BUILDING [] with
    | ok c2 => exact setStatus_pinned _ _ _ _ hok
    | error e => rfl
  · rfl

theorem finished_pinned (c c2 : ManagedCompiler) (he : Bool)
    (errs : List String) (evs : List SettleEvent)
    (h : c.finishedCompilationHandler he errs = Except.ok (c2, evs)) :
    c2.pinned = c.pinned := by
  unfold ManagedCompiler.finishedCompilationHandler at h
  split at h
  · cases hok : c.setStatus ERROR errs with
    | ok c3 =>
      rw [hok] at h
      simp only [ManagedCompiler.rejectCallbacks, ManagedCompiler.clearCallbacks] at h
      cases h
      exact setStatus_pinned c c3 ERROR errs hok
    | error e => rw [hok] at h; cases h
  · cases hok : c.setStatus DONE [] with
    | ok c3 =>
      rw [hok] at h
      simp only [ManagedCompiler.resolveCallbacks, ManagedCompiler.clearCallbacks] at h
      cases h
      exact setStatus_pinned c c3 DONE [] hok
    | error e => rw [hok] at h; cases h

theorem allUnpinned_setKey (l : CompilerMap) (k : String)
    (v : ManagedCompiler) (h : ∀ p ∈ l, p.2.pinned = false)
    (hv : v.pinned = false) : ∀ p ∈ setKey l k v, p.2.pinned = false := by
  intro p hp
  rcases mem_setKey _ _ _ _ hp with rfl | hp2
  · exact hv
  · exact h p hp2

theorem noteCompilerUsage_allUnpinned (m : CompilerManager) (nm : String)
    (now : Int) (h : AllUnpinned m) :
    AllUnpinned (m.noteCompilerUsage nm now) := by
  unfold CompilerManager.noteCompilerUsage
  cases hl : lookupKey m.activeCompilers nm with
  | none => exact h
  | some c =>
    simp only
    split
    · exact h
    · intro p hp
      refine allUnpinned_setKey _ _ _ h ?_ p hp
      have := h _ (lookupKey_mem _ _ _ hl)
      simpa [ManagedCompiler.logFrequencyUsage] using this

theorem applyOp_allUnpinned (m : CompilerManager) (op : PoolOp)
    (h : AllUnpinned m) : AllUnpinned (applyOp m op) := by
  cases op with
  | register nm hc hw st now =>
    simp only [applyOp]
    cases hcall : m.manageCompiler nm hc hw st now with
    | error e => exact h
    | ok m2 =>
      unfold CompilerManager.manageCompiler at hcall
      cases hc2 : ManagedCompiler.construct nm hc hw st now false with
      | error e => rw [hc2] at hcall; cases hcall
      | ok c =>
        rw [hc2] at hcall
        simp only at hcall
        cases hcall
        have hcp : c.pinned = false := construct_pinned _ _ _ _ _ _ _ hc2
        refine noteCompilerUsage_allUnpinned _ _ _ ?_
        intro p hp
        exact allUnpinned_setKey _ _ _ h hcp p hp
  | note nm now => exact noteCompilerUsage_allUnpinned _ _ _ h
  | setSt nm st errs =>
    simp only [applyOp]
    cases hcall : m.setStatus nm st errs with
    | error e => exact h
    | ok m2 =>
      show AllUnpinned m2
      unfold CompilerManager.setStatus at hcall
      cases hl : lookupKey m.activeCompilers nm with
      | none =>
        rw [hl] at hcall
        simp only at hcall
        cases hcall
        exact h
      | some c =>
        rw [hl] at hcall
        simp only at hcall
        cases hok : c.setStatus st errs with
        | error e => rw [hok] at hcall; simp at hcall
        | ok c2 =>
          rw [hok] at hcall
          simp only at hcall
          cases hcall
          intro p hp
          refine allUnpinned_setKey _ _ _ h ?_ p hp
          rw [setStatus_pinned _ _ _ _ hok]
          exact h _ (lookupKey_mem _ _ _ hl)
  | addWaiter nm w =>
    simp only [applyOp]
    unfold CompilerManager.addDeferredCallback
    cases hl : lookupKey m.activeCompilers nm with
    | none => exact h
    | some c =>
      simp only
      refine allUnpinned_setKey _ _ _ h ?_
      have := h _ (lookupKey_mem _ _ _ hl)
      simpa [ManagedCompiler.addCallback] using this
  | invalidateOp nm =>
    simp only [applyOp]
    unfold CompilerManager.invalidateCompiler
    cases hl : lookupKey m.activeCompilers nm with
    | none => exact h
    | some c =>
      simp only
      refine allUnpinned_setKey _ _ _ h ?_
      rw [invalidate_pinned]
      exact h _ (lookupKey_mem _ _ _ hl)
  | closeFinish nm =>
    simp only [applyOp]
    unfold CompilerManager.closeCompilerCallback
    intro p hp
    exact h p (List.mem_of_mem_filter hp)
  | signalNew nm =>
    simp only [applyOp]
    cases hl : lookupKey m.activeCompilers nm with
    | none => exact h
    | some c =>
      simp only
      refine allUnpinned_setKey _ _ _ h ?_
      rw [newCompilationHandler_pinned]
      exact h _ (lookupKey_mem _ _ _ hl)
  | signalFinished nm he errs =>
    simp only [applyOp]
    cases hl : lookupKey m.activeCompilers nm with
    | none => exact h
    | some c =>
      simp only
      cases hfin : c.finishedCompilationHandler he errs with
      | error e => exact h
      | ok pr =>
        obtain ⟨c2, evs⟩ := pr
        simp only
        refine allUnpinned_setKey _ _ _ h ?_
        rw [finished_pinned _ _ _ _ _ hfin]
        exact h _ (lookupKey_mem _ _ _ hl)

theorem foldl_allUnpinned (ops : List PoolOp) (m : CompilerManager)
    (h : AllUnpinned m) : AllUnpinned (ops.foldl applyOp m) := by
  induction ops generalizing m with
  | nil => exact h
  | cons op rest ih => exact ih _ (applyOp_allUnpinned _ _ h)

theorem unpinned_no_infinite_scores (c : ManagedCompiler) (now : Int)
    (h : c.pinned = false) :
    (c.getFrequency now).1 ≠ ⊤ ∧ c.getFrecency now ≠ ⊤ := by
  constructor
  · unfold ManagedCompiler.getFrequency
    rw [if_neg (by simp [h])]
    split
    · exact WithTop.coe_ne_top
    · exact WithTop.coe_ne_top
  · unfold ManagedCompiler.getFrecency
    rw [if_neg (by simp [h])]
    split_ifs <;> exact WithTop.coe_ne_top

/-- C10, confirmed.  Through the pool's public interface (modelled by
`PoolOp` traces from the empty pool), every stored instance has
pinned = false — manageCompiler never forwards a pinned flag, so the
constructor default applies — and consequently no pool-created instance
ever reports an infinite frequency or frecency score. -/
theorem c10_pool_instances_never_pinned (uf : Bool) (ops : List PoolOp)
    (now : Int) :
    ∀ p ∈ (ops.foldl applyOp (CompilerManager.new uf)).activeCompilers,
      p.2.pinned = false ∧
      (p.2.getFrequency now).1 ≠ ⊤ ∧ p.2.getFrecency now ≠ ⊤ := by
  intro p hp
  have hbase : AllUnpinned (CompilerManager.new uf) := by
    intro q hq
    cases hq
  have h := foldl_allUnpinned ops (CompilerManager.new uf) hbase p hp
  exact ⟨h, (unpinned_no_infinite_scores _ now h).1,
    (unpinned_no_infinite_scores _ now h).2⟩

/-- C10, witness: registering "x" through the pool at time 0 yields an
entry with pinned = false and finite scores. -/
theorem c10_pool_witness :
    (mkCompiler "x" FIRST_BUILD [0] 1 0 false).pinned = false ∧
    ((mkCompiler "x" FIRST_BUILD [0] 1 0 false).getFrequency 0).1 ≠ ⊤ ∧
    (mkCompiler "x" FIRST_BUILD [0] 1 0 false).getFrecency 0 ≠ ⊤ :=
  c10_pool_instances_never_pinned false
    [PoolOp.register (some "x") true true FIRST_BUILD 0] 0
    ("x", mkCompiler "x" FIRST_BUILD [0] 1 0 false) (by decide)

end Kevin
